import Mathlib

/-!
Shallow embedding of the policy evaluator of `src/SolDriver.ts`
(the `verifyAssets` method of `SolDriver`), the recursive walker over an
AND / OR / leaf-requirement condition tree, together with its
range-invariant validation and threshold logic.

Modelling conventions:
* JavaScript `bigint` values become `Int`.
* A thrown JS string becomes `EvalError.thrown msg`; an unguarded runtime
  `TypeError` (property access on `undefined`, `BigInt(undefined)`)
  becomes `EvalError.typeError`.
* The loose duck typing of `AssetConditionGroup` (dispatch on the presence
  of `$and` / `$or`) becomes a closed inductive with the same dispatch
  order.
* The external collaborators (the remote balance fetch through axios,
  `convertToCosmosAddress`, `getBalancesForIds` of `bitbadgesjs-utils`,
  and `Date.now()`) are not code of this repository; they are supplied as
  an explicit `Env` of functions, so every theorem quantifies over them or
  instantiates them concretely.
* The in-place assignment `asset.ownershipTimes = [...]` on line 146 of
  the source is modelled by state passing: every evaluation function
  returns the (possibly updated) structure next to its `Except` result,
  and a partial update survives a thrown error exactly as the JS mutation
  does.
-/

/-- `UintRange` of bitbadgesjs-proto: a closed interval of `bigint`s with
fields `start` and `end`.  `end` is a Lean keyword, so the second field is
named `stop` here. -/
structure UintRange where
  start : Int
  stop : Int
deriving Repr, DecidableEq

/-- `Balance` of bitbadgesjs-proto: an owned amount together with the
badge-id ranges and ownership-time ranges it applies to. -/
structure Balance where
  amount : Int
  badgeIds : List UintRange
  ownershipTimes : List UintRange
deriving Repr, DecidableEq

/-- An element of `asset.assetIds`, whose TypeScript type admits both bare
numbers/strings (`typeof x ≠ "object"`) and `UintRange` objects. -/
inductive AssetIdValue where
  | num (n : Int)
  | range (r : UintRange)
deriving Repr, DecidableEq

/-- One leaf ownership requirement (`asset` in the source).
`ownershipTimes` and `mustOwnAmounts` are optional fields. -/
structure Asset where
  chain : String
  collectionId : String
  assetIds : List AssetIdValue
  ownershipTimes : Option (List UintRange)
  mustOwnAmounts : Option UintRange
deriving Repr, DecidableEq

/-- The `options` object of an `OwnershipRequirements` group. -/
structure AssetOptions where
  numMatchesForVerification : Option Int
deriving Repr, DecidableEq

/-- `OwnershipRequirements` of blockin: a flat list of leaf assets plus
optional options. -/
structure OwnershipRequirements where
  assets : List Asset
  options : Option AssetOptions
deriving Repr, DecidableEq

/-- The condition tree (`AssetConditionGroup` of blockin).  The source
dispatches by duck typing: `$and` first, `$or` second, otherwise the flat
`OwnershipRequirements` shape; the closed inductive mirrors those three
shapes. -/
inductive AssetConditionGroup where
  | and (items : List AssetConditionGroup)
  | or (items : List AssetConditionGroup)
  | normal (g : OwnershipRequirements)
deriving Repr

/-- Errors of one evaluation: a thrown JS string, or an unguarded runtime
`TypeError` (reading a property of `undefined`). -/
inductive EvalError where
  | thrown (msg : String)
  | typeError
deriving Repr, DecidableEq

/-- The off-chain balances snapshot: a map from cosmos address to the
balances recorded for it (`balancesSnapshot` parameter). -/
def OffChainBalancesMap : Type := String → Option (List Balance)

/-- The external collaborators of `verifyAssets`, none of which are code
of this repository: the current time (`Date.now()`), the address
canonicalizer, the remote balance fetch (axios + BitBadges API; its
failure is a thrown error), and `getBalancesForIds` of
bitbadgesjs-utils. -/
structure Env where
  now : Int
  convertToCosmosAddress : String → String
  fetchBalances : String → String → Except EvalError (List Balance)
  getBalancesForIds : List UintRange → List UintRange → List Balance → List Balance

/-- Line 121-127: every element of `assetIds` must be an object with both
`BigInt(x.start) ≥ 0` and `BigInt(x.end) ≥ 0`. -/
def validAssetIds (l : List AssetIdValue) : Bool :=
  l.all fun x =>
    match x with
    | .range r => decide (0 ≤ r.start) && decide (0 ≤ r.stop)
    | .num _ => false

/-- Line 130-137: `ownershipTimes`, when present, must be all ranges with
non-negative bounds.  An absent field is not checked. -/
def validOwnershipTimes (o : Option (List UintRange)) : Bool :=
  match o with
  | none => true
  | some l => l.all fun r => decide (0 ≤ r.start) && decide (0 ≤ r.stop)

/-- Line 139-143: `mustOwnAmounts`, when present, must be a range with
non-negative bounds.  An absent field is not checked. -/
def validMustOwnAmounts (o : Option UintRange) : Bool :=
  match o with
  | none => true
  | some r => decide (0 ≤ r.start) && decide (0 ≤ r.stop)

/-- Line 145: the condition under which the default now-now ownership
window is written into the asset. -/
def ownershipTimesMissing (o : Option (List UintRange)) : Bool :=
  match o with
  | none => true
  | some [] => true
  | some (_ :: _) => false

/-- Line 150: `convertUintRange(x as UintRange, BigIntify)` applied to the
validated `assetIds`; on a non-object element `BigInt(x.start)` reads a
property of `undefined` and raises a runtime `TypeError`. -/
def convertAssetIdRanges : List AssetIdValue → Except EvalError (List UintRange)
  | [] => .ok []
  | .num _ :: _ => .error .typeError
  | .range r :: rest => (convertAssetIdRanges rest).map fun l => r :: l

/-- JS template interpolation of an `assetIds` element (or of `undefined`
when the index is out of bounds). -/
def assetIdValueToJsString : Option AssetIdValue → String
  | none => "undefined"
  | some (.num n) => toString n
  | some (.range _) => "[object Object]"

/-- JS array indexing with a possibly negative index. -/
def jsIndex (l : List AssetIdValue) (i : Int) : Option AssetIdValue :=
  if i < 0 then none else l.get? i.toNat

/-- The badge-id ranges of a balance rendered as `start-end` joined by
commas, as in the source's denial messages. -/
def badgeIdsStr (b : Balance) : String :=
  String.intercalate "," (b.badgeIds.map fun x => toString x.start ++ "-" ++ toString x.stop)

/-- Line 173-178: the denial message for owning too little. -/
def tooLittleMsg (address collectionId : String) (b : Balance) (minBound : Int) : String :=
  "Address " ++ address ++ " does not own enough of IDs " ++ badgeIdsStr b ++
    " from collection " ++ collectionId ++
    " to meet minimum balance requirement of " ++ toString minBound

/-- Line 195-200: the denial message for owning too much. -/
def tooMuchMsg (address collectionId : String) (b : Balance) (maxBound : Int) : String :=
  "Address " ++ address ++ " owns too much of IDs " ++ badgeIdsStr b ++
    " from collection " ++ collectionId ++
    " to meet maximum balance requirement of " ++ toString maxBound

/-- Line 169-171: the (dead-code) list denial message of the too-little
branch. -/
def listTooLittleMsg (address : String) (assetIds : List AssetIdValue) (b : Balance) : String :=
  match b.badgeIds with
  | [] => ""
  | r :: _ =>
      "Address " ++ address ++ " does not meet the requirements for list " ++
        assetIdValueToJsString (jsIndex assetIds (r.start - 1))

/-- Line 190-192: the (dead-code) list denial message of the too-much
branch. -/
def listTooMuchMsg (address : String) (assetIds : List AssetIdValue) (b : Balance) : String :=
  match b.badgeIds with
  | [] => ""
  | r :: _ =>
      "Address " ++ address ++ " does not meet requirements for list " ++
        assetIdValueToJsString (jsIndex assetIds (r.start - 1))

/-- Line 214-216: the denial message of an unmet `AtLeastK` threshold. -/
def atLeastMsg (address : String) (numToSatisfy numSatisfied : Int) : String :=
  "Address " ++ address ++ " did not meet the ownership requirements for at least " ++
    toString numToSatisfy ++ " of the IDs. Met for " ++ toString numSatisfied ++ " of the IDs."

/-- Lines 161-208: the per-balance threshold loop.  Walks the matched
balances in order with the running `numSatisfied` counter; under
`mustSatisfyAll` an out-of-bounds amount throws the structured denial,
otherwise it is skipped with `continue`.  Reading
`mustOwnAmount.start` with `mustOwnAmounts` absent is the unguarded
runtime `TypeError` of the source. -/
def checkBalances (address collectionId : String) (assetIds : List AssetIdValue)
    (mustOwnAmounts : Option UintRange) (mustSatisfyAll : Bool) :
    List Balance → Int → Except EvalError Int
  | [], numSatisfied => .ok numSatisfied
  | b :: rest, numSatisfied =>
    match mustOwnAmounts with
    | none => .error .typeError
    | some mo =>
      if b.amount < mo.start then
        if mustSatisfyAll then
          if collectionId = "BitBadges Lists" then
            match b.badgeIds with
            | [] => .error .typeError
            | _ :: _ => .error (.thrown (listTooLittleMsg address assetIds b))
          else .error (.thrown (tooLittleMsg address collectionId b mo.start))
        else checkBalances address collectionId assetIds mustOwnAmounts mustSatisfyAll rest numSatisfied
      else if mo.stop < b.amount then
        if mustSatisfyAll then
          if collectionId = "BitBadges Lists" then
            match b.badgeIds with
            | [] => .error .typeError
            | _ :: _ => .error (.thrown (listTooMuchMsg address assetIds b))
          else .error (.thrown (tooMuchMsg address collectionId b mo.stop))
        else checkBalances address collectionId assetIds mustOwnAmounts mustSatisfyAll rest numSatisfied
      else checkBalances address collectionId assetIds mustOwnAmounts mustSatisfyAll rest (numSatisfied + 1)

/-- Lines 94-115: obtain `docBalances`, from the snapshot when one is
given (an absent key yields `[]`), otherwise from the remote fetch. -/
def resolveDocBalances (env : Env) (address : String)
    (balancesSnapshot : Option OffChainBalancesMap) (collectionId : String) :
    Except EvalError (List Balance) :=
  match balancesSnapshot with
  | none => env.fetchBalances collectionId (env.convertToCosmosAddress address)
  | some snap =>
    match snap (env.convertToCosmosAddress address) with
    | some bs => .ok bs
    | none => .ok []

/-- Lines 88-208, one iteration of `for (const asset of normalItem.assets)`:
resolve balances, reject `BitBadges Lists` and unsupported chains, validate
the range fields, default `ownershipTimes` in place, match balances with
`getBalancesForIds`, and run the threshold loop.  Returns the updated
`numSatisfied` (or the thrown error) together with the possibly mutated
asset. -/
def evalAsset (env : Env) (address : String)
    (balancesSnapshot : Option OffChainBalancesMap) (mustSatisfyAll : Bool)
    (numSatisfied : Int) (asset : Asset) : Except EvalError Int × Asset :=
  if asset.chain = "BitBadges" then
    match resolveDocBalances env address balancesSnapshot asset.collectionId with
    | .error e => (.error e, asset)
    | .ok docBalances =>
      if asset.collectionId = "BitBadges Lists" then
        (.error (.thrown "BitBadges Lists are not supported for now"), asset)
      else if !validAssetIds asset.assetIds then
        (.error (.thrown "All assetIds must be UintRanges for BitBadges compatibility"), asset)
      else if !validOwnershipTimes asset.ownershipTimes then
        (.error (.thrown "All ownershipTimes must be UintRanges for BitBadges compatibility"), asset)
      else if !validMustOwnAmounts asset.mustOwnAmounts then
        (.error (.thrown "mustOwnAmount must be UintRange for BitBadges compatibility"), asset)
      else
        let asset2 :=
          if ownershipTimesMissing asset.ownershipTimes then
            { asset with ownershipTimes := some [{ start := env.now, stop := env.now }] }
          else asset
        match convertAssetIdRanges asset2.assetIds with
        | .error e => (.error e, asset2)
        | .ok idRanges =>
          let balances :=
            env.getBalancesForIds idRanges (asset2.ownershipTimes.getD []) docBalances
          (checkBalances address asset2.collectionId asset2.assetIds asset2.mustOwnAmounts
            mustSatisfyAll balances numSatisfied, asset2)
  else
    (.error (.thrown "Solana asset verification is not supported for now"), asset)

/-- The asset loop of the leaf branch, threading `numSatisfied`; a thrown
error stops the loop, leaving the remaining assets untouched. -/
def evalAssetsLoop (env : Env) (address : String)
    (balancesSnapshot : Option OffChainBalancesMap) (mustSatisfyAll : Bool) :
    List Asset → Int → Except EvalError Int × List Asset
  | [], numSatisfied => (.ok numSatisfied, [])
  | a :: rest, numSatisfied =>
    match evalAsset env address balancesSnapshot mustSatisfyAll numSatisfied a with
    | (.ok n2, a2) =>
      let r := evalAssetsLoop env address balancesSnapshot mustSatisfyAll rest n2
      (r.1, a2 :: r.2)
    | (.error e, a2) => (.error e, a2 :: rest)

/-- Line 84: `normalItem.options?.numMatchesForVerification ?? 0`. -/
def numToSatisfy (g : OwnershipRequirements) : Int :=
  (g.options.bind AssetOptions.numMatchesForVerification).getD 0

/-- Line 85: `const mustSatisfyAll = !numToSatisfy` — true exactly when
`numToSatisfy` is the falsy bigint `0n`. -/
def mustSatisfyAllB (g : OwnershipRequirements) : Bool :=
  numToSatisfy g == 0

/-- Lines 83-218: evaluation of one flat `OwnershipRequirements` group:
run the asset loop, then under `AtLeastK` (a truthy
`numMatchesForVerification`) compare the satisfied count with the
threshold. -/
def evalNormal (env : Env) (address : String)
    (balancesSnapshot : Option OffChainBalancesMap) (g : OwnershipRequirements) :
    Except EvalError Unit × OwnershipRequirements :=
  let nts := numToSatisfy g
  let msa := mustSatisfyAllB g
  match evalAssetsLoop env address balancesSnapshot msa g.assets 0 with
  | (.error e, assets2) => (.error e, { g with assets := assets2 })
  | (.ok numSatisfied, assets2) =>
    if msa then (.ok (), { g with assets := assets2 })
    else if numSatisfied < nts then
      (.error (.thrown (atLeastMsg address nts numSatisfied)), { g with assets := assets2 })
    else (.ok (), { g with assets := assets2 })

mutual

/-- Lines 63-220, `verifyAssets`: dispatch on the tree shape; `$and`
iterates all children, `$or` tries children until one succeeds and
swallows each failure, otherwise the flat group is evaluated.  The second
component is the tree after the in-place `ownershipTimes` defaulting. -/
def verifyAssets (env : Env) (address : String)
    (balancesSnapshot : Option OffChainBalancesMap) :
    AssetConditionGroup → Except EvalError Unit × AssetConditionGroup
  | .and items =>
    let r := verifyAnd env address balancesSnapshot items
    (r.1, .and r.2)
  | .or items =>
    let r := verifyOr env address balancesSnapshot items
    (r.1, .or r.2)
  | .normal g =>
    let r := evalNormal env address balancesSnapshot g
    (r.1, .normal r.2)

/-- Lines 68-71: the `$and` loop — every child in declared order, the
first thrown error propagates and the remaining children are not
evaluated. -/
def verifyAnd (env : Env) (address : String)
    (balancesSnapshot : Option OffChainBalancesMap) :
    List AssetConditionGroup → Except EvalError Unit × List AssetConditionGroup
  | [] => (.ok (), [])
  | t :: rest =>
    match verifyAssets env address balancesSnapshot t with
    | (.ok _, t2) =>
      let r := verifyAnd env address balancesSnapshot rest
      (r.1, t2 :: r.2)
    | (.error e, t2) => (.error e, t2 :: rest)

/-- Lines 72-82: the `$or` loop — children in declared order inside
`try`/`catch`; the first success returns, every failure (of any kind) is
swallowed by `continue`, and exhaustion throws the generic group
message. -/
def verifyOr (env : Env) (address : String)
    (balancesSnapshot : Option OffChainBalancesMap) :
    List AssetConditionGroup → Except EvalError Unit × List AssetConditionGroup
  | [] => (.error (.thrown "Did not meet the requirements for any of the assets in the group"), [])
  | t :: rest =>
    match verifyAssets env address balancesSnapshot t with
    | (.ok _, t2) => (.ok (), t2 :: rest)
    | (.error _, t2) =>
      let r := verifyOr env address balancesSnapshot rest
      (r.1, t2 :: r.2)

end

/-! ## Concrete fixtures used by counterexamples and witnesses -/

/-- A concrete environment: time 100, identity canonicalization, a remote
fetch returning no balances, and a `getBalancesForIds` that passes the
document balances through unchanged. -/
def envC : Env where
  now := 100
  convertToCosmosAddress := fun a => a
  fetchBalances := fun _ _ => .ok []
  getBalancesForIds := fun _ _ db => db

/-- A snapshot with no recorded addresses. -/
def snapEmpty : OffChainBalancesMap := fun _ => none

/-- One held balance of the given amount on badge id 1 at time 0. -/
def bal (amt : Int) : Balance where
  amount := amt
  badgeIds := [{ start := 1, stop := 1 }]
  ownershipTimes := [{ start := 0, stop := 0 }]

/-- A snapshot recording exactly one balance of the given amount for every
address. -/
def snapOne (amt : Int) : OffChainBalancesMap := fun _ => some [bal amt]

/-- A leaf requirement on an unsupported chain. -/
def solAsset : Asset where
  chain := "Solana"
  collectionId := "1"
  assetIds := [.range { start := 1, stop := 1 }]
  ownershipTimes := some [{ start := 0, stop := 0 }]
  mustOwnAmounts := some { start := 0, stop := 1 }

/-- A flat group holding only `solAsset`. -/
def solGroup : OwnershipRequirements where
  assets := [solAsset]
  options := none

/-- A well-formed BitBadges leaf requirement: badge id 1, time 0, amount
bounds [5, 10]. -/
def bbAsset : Asset where
  chain := "BitBadges"
  collectionId := "1"
  assetIds := [.range { start := 1, stop := 1 }]
  ownershipTimes := some [{ start := 0, stop := 0 }]
  mustOwnAmounts := some { start := 5, stop := 10 }

/-- `bbAsset` with a reversed asset-id range: start 1, end 0, both bounds
non-negative. -/
def reversedRangeAsset : Asset := { bbAsset with assetIds := [.range { start := 1, stop := 0 }] }

/-- A flat group holding only `reversedRangeAsset`. -/
def reversedRangeGroup : OwnershipRequirements where
  assets := [reversedRangeAsset]
  options := none

/-- `bbAsset` with its `ownershipTimes` field absent. -/
def noTimesAsset : Asset := { bbAsset with ownershipTimes := none }

/-- A leaf tree whose only asset omits `ownershipTimes`. -/
def noTimesTree : AssetConditionGroup := .normal { assets := [noTimesAsset], options := none }

/-- `bbAsset` with a negative asset-id bound. -/
def negBoundAsset : Asset := { bbAsset with assetIds := [.range { start := -1, stop := 5 }] }

/-- `bbAsset` with its `mustOwnAmounts` field absent. -/
def noAmountAsset : Asset := { bbAsset with mustOwnAmounts := none }

/-- `bbAsset` pointed at the aggregate `BitBadges Lists` collection. -/
def listsAsset : Asset := { bbAsset with collectionId := "BitBadges Lists" }

/-- A flat group over `bbAsset` with `numMatchesForVerification = -1`. -/
def negKGroup : OwnershipRequirements where
  assets := [bbAsset]
  options := some { numMatchesForVerification := some (-1) }

/-- A flat group over `bbAsset` with no options (AllOf semantics). -/
def allOfGroup : OwnershipRequirements where
  assets := [bbAsset]
  options := none

/-- A flat group over `bbAsset` with `numMatchesForVerification = 2`. -/
def kTwoGroup : OwnershipRequirements where
  assets := [bbAsset]
  options := some { numMatchesForVerification := some 2 }

/-- A leaf tree that always accepts: a group with no assets. -/
def okTree : AssetConditionGroup := .normal { assets := [], options := none }

/-- A leaf tree that always fails: the unsupported-chain group. -/
def badTree : AssetConditionGroup := .normal solGroup

/-! ## Helper lemmas -/

/-- The `$or` loop never surfaces a branch error: its own result is either
acceptance or the generic group denial. -/
lemma verifyOr_ok_or_generic (env : Env) (address : String)
    (snap : Option OffChainBalancesMap) (items : List AssetConditionGroup) :
    (verifyOr env address snap items).1 = .ok () ∨
      (verifyOr env address snap items).1 =
        .error (.thrown "Did not meet the requirements for any of the assets in the group") := by
  induction items with
  | nil => right; rfl
  | cons t rest ih =>
    rcases hv : verifyAssets env address snap t with ⟨r, t2⟩
    cases r with
    | ok u => left; simp [verifyOr, hv]
    | error e => simpa [verifyOr, hv] using ih

/-- The `$or` loop denies exactly when every child, evaluated on its own
subtree, fails. -/
lemma verifyOr_error_iff (env : Env) (address : String)
    (snap : Option OffChainBalancesMap) (items : List AssetConditionGroup) :
    (verifyOr env address snap items).1 =
        .error (.thrown "Did not meet the requirements for any of the assets in the group") ↔
      ∀ t ∈ items, ∃ e, (verifyAssets env address snap t).1 = .error e := by
  induction items with
  | nil => simp [verifyOr]
  | cons t rest ih =>
    rcases hv : verifyAssets env address snap t with ⟨r, t2⟩
    cases r with
    | ok u =>
      simp only [verifyOr, hv]
      constructor
      · intro h; cases h
      · intro h
        rcases h t (by simp) with ⟨e, he⟩
        rw [hv] at he
        cases he
    | error e =>
      simp only [verifyOr, hv]
      rw [ih]
      constructor
      · intro h t' ht'
        rcases List.mem_cons.mp ht' with h1 | h2
        · subst h1; exact ⟨e, by rw [hv]⟩
        · exact h t' h2
      · intro h t' ht'
        exact h t' (List.mem_cons_of_mem _ ht')

/-- The `$and` loop accepts exactly when every child, evaluated on its own
subtree, accepts. -/
lemma verifyAnd_ok_iff (env : Env) (address : String)
    (snap : Option OffChainBalancesMap) (items : List AssetConditionGroup) :
    (verifyAnd env address snap items).1 = .ok () ↔
      ∀ t ∈ items, (verifyAssets env address snap t).1 = .ok () := by
  induction items with
  | nil => simp [verifyAnd]
  | cons t rest ih =>
    rcases hv : verifyAssets env address snap t with ⟨r, t2⟩
    cases r with
    | ok u =>
      simp only [verifyAnd, hv]
      rw [ih]
      constructor
      · intro h t' ht'
        rcases List.mem_cons.mp ht' with h1 | h2
        · subst h1; rw [hv]
        · exact h t' h2
      · intro h t' ht'
        exact h t' (List.mem_cons_of_mem _ ht')
    | error e =>
      simp only [verifyAnd, hv]
      constructor
      · intro h; cases h
      · intro h
        have := h t (by simp)
        rw [hv] at this
        cases this

/-! ## Claims C6, C7 — OR / AND group semantics -/

/-- Claim C6: for every OR-group, children are evaluated in declared
order; a first accepting child makes the group accept immediately with the
remaining children untouched (so no later child is evaluated and no error
it would have raised surfaces); and the group denies with the generic
no-alternative-satisfied reason exactly when every child fails. -/
theorem C6_or_short_circuit (env : Env) (address : String)
    (snap : Option OffChainBalancesMap) (t t2 : AssetConditionGroup) (u : Unit)
    (rest items : List AssetConditionGroup) :
    (verifyAssets env address snap t = (.ok u, t2) →
      verifyAssets env address snap (.or (t :: rest)) = (.ok (), .or (t2 :: rest))) ∧
    ((verifyAssets env address snap (.or items)).1 =
        .error (.thrown "Did not meet the requirements for any of the assets in the group") ↔
      ∀ t' ∈ items, ∃ e, (verifyAssets env address snap t').1 = .error e) := by
  constructor
  · intro h
    simp [verifyAssets, verifyOr, h]
  · simpa [verifyAssets] using verifyOr_error_iff env address snap items

/-- Witness for C6: with a first accepting child the OR-group accepts and
the second child is returned untouched; an OR-group whose only child fails
denies with the generic group message. -/
theorem C6_or_short_circuit_witness :
    verifyAssets envC "addr" (some snapEmpty) (.or [okTree, badTree]) =
      (.ok (), .or [okTree, badTree]) ∧
    (verifyAssets envC "addr" (some snapEmpty) (.or [badTree])).1 =
      .error (.thrown "Did not meet the requirements for any of the assets in the group") := by
  constructor
  · exact (C6_or_short_circuit envC "addr" (some snapEmpty) okTree okTree () [badTree] []).1 rfl
  · exact (C6_or_short_circuit envC "addr" (some snapEmpty) okTree okTree () [] [badTree]).2.mpr
      (by
        intro t' ht'
        simp only [List.mem_singleton] at ht'
        subst ht'
        exact ⟨.thrown "Solana asset verification is not supported for now", rfl⟩)

/-- Claim C7: for every AND-group, children are evaluated in declared
order; the first child denial becomes the group's denial with the
remaining children untouched, and the group accepts exactly when every
child accepts. -/
theorem C7_and_fail_fast (env : Env) (address : String)
    (snap : Option OffChainBalancesMap) (t t2 : AssetConditionGroup) (e : EvalError)
    (rest items : List AssetConditionGroup) :
    (verifyAssets env address snap t = (.error e, t2) →
      verifyAssets env address snap (.and (t :: rest)) = (.error e, .and (t2 :: rest))) ∧
    ((verifyAssets env address snap (.and items)).1 = .ok () ↔
      ∀ t' ∈ items, (verifyAssets env address snap t').1 = .ok ()) := by
  constructor
  · intro h
    simp [verifyAssets, verifyAnd, h]
  · simpa [verifyAssets] using verifyAnd_ok_iff env address snap items

/-- Witness for C7: a first failing child makes the AND-group deny with
that child's error and the second child untouched; an AND-group of two
accepting children accepts. -/
theorem C7_and_fail_fast_witness :
    verifyAssets envC "addr" (some snapEmpty) (.and [badTree, okTree]) =
      (.error (.thrown "Solana asset verification is not supported for now"),
        .and [badTree, okTree]) ∧
    (verifyAssets envC "addr" (some snapEmpty) (.and [okTree, okTree])).1 = .ok () := by
  constructor
  · exact (C7_and_fail_fast envC "addr" (some snapEmpty) badTree badTree
      (.thrown "Solana asset verification is not supported for now") [okTree] []).1 rfl
  · exact (C7_and_fail_fast envC "addr" (some snapEmpty) okTree okTree .typeError
      [] [okTree, okTree]).2.mpr
      (by
        intro t' ht'
        simp only [List.mem_cons, List.not_mem_nil, or_false] at ht'
        rcases ht' with h | h <;> (subst h; rfl))

/-! ## Claim C1 — error propagation through OR-groups -/

/-- Counterexample to C1: the only branch of the OR-group raises the fatal
`UnsupportedChain` error ("Solana asset verification is not supported for
now"), no earlier branch accepted, yet the OR-group evaluation does not
propagate it: it swallows the branch error and throws the generic group
denial instead. -/
theorem C1_or_swallows_fatal_counterexample :
    verifyAssets envC "addr" (some snapEmpty) (.normal solGroup) =
      (.error (.thrown "Solana asset verification is not supported for now"), .normal solGroup) ∧
    verifyAssets envC "addr" (some snapEmpty) (.or [.normal solGroup]) =
      (.error (.thrown "Did not meet the requirements for any of the assets in the group"),
        .or [.normal solGroup]) :=
  ⟨rfl, rfl⟩

/-- Claim C1 as amended: an OR-group swallows every branch error
uniformly — fatal validation and infrastructure errors included — and its
own outcome is either acceptance or the generic group denial; no branch
error of any kind propagates out of the OR-group. -/
theorem C1_or_swallows_all_branch_errors (env : Env) (address : String)
    (snap : Option OffChainBalancesMap) (t t2 : AssetConditionGroup) (e : EvalError)
    (rest items : List AssetConditionGroup) :
    (verifyAssets env address snap t = (.error e, t2) →
      (verifyAssets env address snap (.or (t :: rest))).1 =
        (verifyAssets env address snap (.or rest)).1) ∧
    ((verifyAssets env address snap (.or items)).1 = .ok () ∨
      (verifyAssets env address snap (.or items)).1 =
        .error (.thrown "Did not meet the requirements for any of the assets in the group")) := by
  constructor
  · intro h
    simp [verifyAssets, verifyOr, h]
  · simpa [verifyAssets] using verifyOr_ok_or_generic env address snap items

/-- Witness for the amended C1: a branch raising the fatal
`UnsupportedChain` error behaves exactly like an absent branch. -/
theorem C1_or_swallows_all_branch_errors_witness :
    (verifyAssets envC "addr" (some snapEmpty) (.or [.normal solGroup])).1 =
      (verifyAssets envC "addr" (some snapEmpty) (.or [])).1 :=
  (C1_or_swallows_all_branch_errors envC "addr" (some snapEmpty) (.normal solGroup)
    (.normal solGroup) (.thrown "Solana asset verification is not supported for now") [] []).1 rfl

/-! ## Claims C4, C5 — AllOf and AtLeastK threshold logic -/

/-- Claim C4: under AllOf, a matched sub-range amount counts exactly when
it lies inclusively between the amount bounds; an amount below the minimum
denies immediately with the too-little reason naming the address, the
failing badge-id sub-ranges, the collection and the violated minimum; an
amount above the maximum denies with the too-much reason naming the
violated maximum; the denial is the same whatever balances or requirements
follow (fail-fast). -/
theorem C4_allof_threshold (env : Env) (address collectionId : String)
    (snap : Option OffChainBalancesMap) (ids : List AssetIdValue) (mo : UintRange)
    (b : Balance) (rest : List Balance) (n : Int) (a a2 : Asset)
    (moreAssets : List Asset) (e : EvalError)
    (hcol : collectionId ≠ "BitBadges Lists") :
    ((∃ m, checkBalances address collectionId ids (some mo) true [b] n = .ok m) ↔
      mo.start ≤ b.amount ∧ b.amount ≤ mo.stop) ∧
    (b.amount < mo.start →
      checkBalances address collectionId ids (some mo) true (b :: rest) n =
        .error (.thrown (tooLittleMsg address collectionId b mo.start))) ∧
    (mo.start ≤ b.amount → mo.stop < b.amount →
      checkBalances address collectionId ids (some mo) true (b :: rest) n =
        .error (.thrown (tooMuchMsg address collectionId b mo.stop))) ∧
    (mo.start ≤ b.amount → b.amount ≤ mo.stop →
      checkBalances address collectionId ids (some mo) true (b :: rest) n =
        checkBalances address collectionId ids (some mo) true rest (n + 1)) ∧
    (evalAsset env address snap true n a = (.error e, a2) →
      evalAssetsLoop env address snap true (a :: moreAssets) n = (.error e, a2 :: moreAssets)) := by
  have hlittle : ∀ (bs : List Balance), b.amount < mo.start →
      checkBalances address collectionId ids (some mo) true (b :: bs) n =
        .error (.thrown (tooLittleMsg address collectionId b mo.start)) := by
    intro bs h
    simp [checkBalances, h, hcol]
  have hmuch : ∀ (bs : List Balance), mo.start ≤ b.amount → mo.stop < b.amount →
      checkBalances address collectionId ids (some mo) true (b :: bs) n =
        .error (.thrown (tooMuchMsg address collectionId b mo.stop)) := by
    intro bs h1 h2
    simp [checkBalances, not_lt.mpr h1, h2, hcol]
  refine ⟨?_, hlittle rest, hmuch rest, ?_, ?_⟩
  · constructor
    · rintro ⟨m, hm⟩
      by_contra hcon
      rw [not_and_or] at hcon
      rcases hcon with h | h
      · rw [not_le] at h
        rw [hlittle [] h] at hm
        cases hm
      · rw [not_le] at h
        rcases le_or_lt mo.start b.amount with h1 | h1
        · rw [hmuch [] h1 h] at hm
          cases hm
        · rw [hlittle [] h1] at hm
          cases hm
    · rintro ⟨h1, h2⟩
      exact ⟨n + 1, by simp [checkBalances, not_lt.mpr h1, not_lt.mpr h2]⟩
  · intro h1 h2
    simp [checkBalances, not_lt.mpr h1, not_lt.mpr h2]
  · intro h
    simp [evalAssetsLoop, h]

/-- Witness for C4: with bounds [5, 10], a held amount of exactly 5 counts
(boundary inclusive), 4 denies too little, 11 denies too much. -/
theorem C4_allof_threshold_witness :
    (∃ m, checkBalances "addr" "1" [] (some { start := 5, stop := 10 }) true [bal 5] 0 = .ok m) ∧
    checkBalances "addr" "1" [] (some { start := 5, stop := 10 }) true [bal 4] 0 =
      .error (.thrown (tooLittleMsg "addr" "1" (bal 4) 5)) ∧
    checkBalances "addr" "1" [] (some { start := 5, stop := 10 }) true [bal 11] 0 =
      .error (.thrown (tooMuchMsg "addr" "1" (bal 11) 10)) := by
  refine ⟨?_, ?_, ?_⟩
  · exact (C4_allof_threshold envC "addr" "1" none [] { start := 5, stop := 10 } (bal 5) [] 0
      solAsset solAsset [] .typeError (by decide)).1.mpr (by decide)
  · exact (C4_allof_threshold envC "addr" "1" none [] { start := 5, stop := 10 } (bal 4) [] 0
      solAsset solAsset [] .typeError (by decide)).2.1 (by decide)
  · exact (C4_allof_threshold envC "addr" "1" none [] { start := 5, stop := 10 } (bal 11) [] 0
      solAsset solAsset [] .typeError (by decide)).2.2.1 (by decide) (by decide)

/-- Claim C5: under AtLeastK, a sub-range amount outside the bounds is
skipped (the loop continues with the same count) rather than fatal; an
in-bounds amount increments the one running count; the count is threaded
across all requirements of the group; and once every requirement is
processed the group denies exactly when the count is below the threshold,
with the reason stating the required and the satisfied numbers, accepting
otherwise. -/
theorem C5_atleastk_threshold (env : Env) (address collectionId : String)
    (snap : Option OffChainBalancesMap) (ids : List AssetIdValue) (mo : UintRange)
    (b : Balance) (rest : List Balance) (n n2 k m : Int) (a a2 : Asset)
    (moreAssets assets2 : List Asset) (g : OwnershipRequirements) :
    (b.amount < mo.start ∨ mo.stop < b.amount →
      checkBalances address collectionId ids (some mo) false (b :: rest) n =
        checkBalances address collectionId ids (some mo) false rest n) ∧
    (mo.start ≤ b.amount → b.amount ≤ mo.stop →
      checkBalances address collectionId ids (some mo) false (b :: rest) n =
        checkBalances address collectionId ids (some mo) false rest (n + 1)) ∧
    (evalAsset env address snap false n a = (.ok n2, a2) →
      evalAssetsLoop env address snap false (a :: moreAssets) n =
        ((evalAssetsLoop env address snap false moreAssets n2).1,
          a2 :: (evalAssetsLoop env address snap false moreAssets n2).2)) ∧
    (numToSatisfy g = k → k ≠ 0 →
      evalAssetsLoop env address snap (mustSatisfyAllB g) g.assets 0 = (.ok m, assets2) →
      evalNormal env address snap g =
        (if m < k then
          (.error (.thrown (atLeastMsg address k m)), { g with assets := assets2 })
        else (.ok (), { g with assets := assets2 }))) := by
  refine ⟨?_, ?_, ?_, ?_⟩
  · intro h
    rcases lt_or_le b.amount mo.start with hlt | hge
    · simp [checkBalances, hlt]
    · have hstop : mo.stop < b.amount := by
        rcases h with h | h
        · exact absurd h (not_lt.mpr hge)
        · exact h
      simp [checkBalances, not_lt.mpr hge, hstop]
  · intro h1 h2
    simp [checkBalances, not_lt.mpr h1, not_lt.mpr h2]
  · intro h
    simp [evalAssetsLoop, h]
  · intro hk hk0 hloop
    have hmsa : mustSatisfyAllB g = false := by
      simp [mustSatisfyAllB, hk, hk0]
    rw [hmsa] at hloop
    simp only [evalNormal, hmsa, hk, hloop]
    simp

/-- Witness for C5: an out-of-bounds amount is skipped with the count
unchanged, and an AtLeastK(2) group in which exactly one sub-range is
satisfied denies citing 2 required and 1 met. -/
theorem C5_atleastk_threshold_witness :
    checkBalances "addr" "1" [] (some { start := 5, stop := 10 }) false [bal 4] 0 =
      checkBalances "addr" "1" [] (some { start := 5, stop := 10 }) false [] 0 ∧
    evalNormal envC "addr" (some (snapOne 7)) kTwoGroup =
      (.error (.thrown (atLeastMsg "addr" 2 1)), kTwoGroup) := by
  constructor
  · exact (C5_atleastk_threshold envC "addr" "1" none [] { start := 5, stop := 10 } (bal 4) [] 0 0 2 1
      solAsset solAsset [] [] kTwoGroup).1 (Or.inl (by decide))
  · have h := (C5_atleastk_threshold envC "addr" "1" (some (snapOne 7)) []
      { start := 5, stop := 10 } (bal 4) [] 0 0 2 1 solAsset solAsset [] [bbAsset] kTwoGroup).2.2.2
      (by decide) (by decide) rfl
    exact h.trans rfl

/-- With a snapshot present, balance resolution always succeeds: the
snapshot entry, or `[]` for an unknown address. -/
lemma resolveDocBalances_snapshot (env : Env) (address : String)
    (m : OffChainBalancesMap) (collectionId : String) :
    resolveDocBalances env address (some m) collectionId =
      .ok ((m (env.convertToCosmosAddress address)).getD []) := by
  cases hm : m (env.convertToCosmosAddress address) with
  | none => simp [resolveDocBalances, hm]
  | some bs => simp [resolveDocBalances, hm]

/-! ## Claim C2 — range-invariant validation -/

/-- Counterexample to C2: a leaf whose asset-id range is reversed
(start 1, end 0 — violating start ≤ end while keeping both bounds
non-negative) is accepted outright: evaluation returns success and never
raises the `InvalidRequirement` validation error. -/
theorem C2_reversed_range_accepted_counterexample :
    reversedRangeAsset.assetIds = [.range { start := 1, stop := 0 }] ∧
    verifyAssets envC "addr" (some snapEmpty) (.normal reversedRangeGroup) =
      (.ok (), .normal reversedRangeGroup) :=
  ⟨rfl, rfl⟩

/-- Claim C2 as amended: the requirement validation checks only that every
range field is a range object with non-negative bounds — `start ≤ end` is
not checked.  When an asset-id entry, an ownership-time range, or the
amount range fails that check, evaluation fails with the corresponding
validation error before any threshold comparison, under both AllOf and
AtLeastK (the error does not depend on the satisfaction policy or on the
balances). -/
theorem C2_negative_bound_validation (env : Env) (address : String)
    (m : OffChainBalancesMap) (msa : Bool) (n : Int) (a : Asset)
    (hchain : a.chain = "BitBadges") (hcol : a.collectionId ≠ "BitBadges Lists") :
    (validAssetIds a.assetIds = false →
      evalAsset env address (some m) msa n a =
        (.error (.thrown "All assetIds must be UintRanges for BitBadges compatibility"), a)) ∧
    (validAssetIds a.assetIds = true → validOwnershipTimes a.ownershipTimes = false →
      evalAsset env address (some m) msa n a =
        (.error (.thrown "All ownershipTimes must be UintRanges for BitBadges compatibility"), a)) ∧
    (validAssetIds a.assetIds = true → validOwnershipTimes a.ownershipTimes = true →
      validMustOwnAmounts a.mustOwnAmounts = false →
      evalAsset env address (some m) msa n a =
        (.error (.thrown "mustOwnAmount must be UintRange for BitBadges compatibility"), a)) := by
  refine ⟨?_, ?_, ?_⟩
  · intro h1
    simp [evalAsset, hchain, resolveDocBalances_snapshot, hcol, h1]
  · intro h1 h2
    simp [evalAsset, hchain, resolveDocBalances_snapshot, hcol, h1, h2]
  · intro h1 h2 h3
    simp [evalAsset, hchain, resolveDocBalances_snapshot, hcol, h1, h2, h3]

/-- Witness for the amended C2: an asset-id range with a negative start is
rejected with the assetIds validation error, here under the AtLeastK
policy. -/
theorem C2_negative_bound_validation_witness :
    validAssetIds negBoundAsset.assetIds = false ∧
    evalAsset envC "addr" (some snapEmpty) false 0 negBoundAsset =
      (.error (.thrown "All assetIds must be UintRanges for BitBadges compatibility"),
        negBoundAsset) := by
  refine ⟨by decide, ?_⟩
  exact (C2_negative_bound_validation envC "addr" snapEmpty false 0 negBoundAsset rfl
    (by decide)).1 (by decide)

/-! ## Claim C8 — unsupported collection kind and unsupported chain -/

/-- Claim C8: a BitBadges leaf pointed at the aggregate "BitBadges Lists"
collection fails with the `UnsupportedCollectionKind` error rather than
returning empty balances; a leaf whose chain tag is not `BitBadges` fails
with the `UnsupportedChain` error; both hold for either satisfaction
policy, and the chain failure aborts the whole group whatever its
options. -/
theorem C8_unsupported_kinds (env : Env) (address : String)
    (m : OffChainBalancesMap) (snap : Option OffChainBalancesMap) (msa : Bool) (n : Int)
    (a : Asset) (g : OwnershipRequirements) (rest : List Asset) :
    (a.chain = "BitBadges" → a.collectionId = "BitBadges Lists" →
      evalAsset env address (some m) msa n a =
        (.error (.thrown "BitBadges Lists are not supported for now"), a)) ∧
    (a.chain ≠ "BitBadges" →
      evalAsset env address snap msa n a =
        (.error (.thrown "Solana asset verification is not supported for now"), a)) ∧
    (g.assets = a :: rest → a.chain ≠ "BitBadges" →
      (evalNormal env address snap g).1 =
        .error (.thrown "Solana asset verification is not supported for now")) := by
  refine ⟨?_, ?_, ?_⟩
  · intro h1 h2
    simp [evalAsset, h1, resolveDocBalances_snapshot, h2]
  · intro h1
    simp [evalAsset, h1]
  · intro hg h1
    simp [evalNormal, hg, evalAssetsLoop, evalAsset, h1]

/-- Witness for C8: the lists collection and the Solana chain each produce
their fatal error, and the unsupported chain error aborts the whole
group. -/
theorem C8_unsupported_kinds_witness :
    evalAsset envC "addr" (some snapEmpty) true 0 listsAsset =
      (.error (.thrown "BitBadges Lists are not supported for now"), listsAsset) ∧
    evalAsset envC "addr" (some snapEmpty) false 0 solAsset =
      (.error (.thrown "Solana asset verification is not supported for now"), solAsset) ∧
    (evalNormal envC "addr" (some snapEmpty) solGroup).1 =
      .error (.thrown "Solana asset verification is not supported for now") := by
  refine ⟨?_, ?_, ?_⟩
  · exact (C8_unsupported_kinds envC "addr" snapEmpty (some snapEmpty) true 0 listsAsset
      solGroup []).1 rfl rfl
  · exact (C8_unsupported_kinds envC "addr" snapEmpty (some snapEmpty) false 0 solAsset
      solGroup []).2.1 (by decide)
  · exact (C8_unsupported_kinds envC "addr" snapEmpty (some snapEmpty) false 0 solAsset
      solGroup []).2.2 rfl (by decide)

/-! ## Claim C9 — absent mustOwnAmounts -/

/-- Claim C9: the requirement validation accepts an absent
`mustOwnAmounts` (the check is guarded on the field's presence), but the
threshold loop dereferences the absent bounds, so any non-empty matched
balance list produces the unguarded runtime `TypeError` rather than a
structured validation error — demonstrated end to end on a requirement
whose snapshot yields one matched balance, under either policy. -/
theorem C9_missing_mustOwnAmounts_typeError (address collectionId : String)
    (ids : List AssetIdValue) (msa : Bool) (b : Balance) (rest : List Balance) (n : Int) :
    validMustOwnAmounts none = true ∧
    checkBalances address collectionId ids none msa (b :: rest) n = .error .typeError ∧
    (evalAsset envC "addr" (some (snapOne 7)) msa 0 noAmountAsset).1 = .error .typeError := by
  refine ⟨rfl, rfl, rfl⟩

/-! ## Claim C10 — the k = 0 / absent threshold dispatch -/

/-- Counterexample to C10: with `numMatchesForVerification = -1` — not
strictly positive — the group is still evaluated under the AtLeastK
(threshold) semantics: the out-of-bounds balance of 100 is skipped and the
group accepts, whereas the same group under AllOf (absent options) denies
with the too-much error. -/
theorem C10_negative_k_counterexample :
    numToSatisfy negKGroup = -1 ∧ mustSatisfyAllB negKGroup = false ∧
    evalNormal envC "addr" (some (snapOne 100)) negKGroup = (.ok (), negKGroup) ∧
    evalNormal envC "addr" (some (snapOne 100)) allOfGroup =
      (.error (.thrown (tooMuchMsg "addr" "1" (bal 100) 10)), allOfGroup) :=
  ⟨rfl, rfl, rfl, rfl⟩

/-- Claim C10 as amended: a group whose `numMatchesForVerification` is
absent or 0 runs under AllOf semantics — the strict loop's error is the
group's outcome and a successful strict loop accepts with no threshold
comparison, so a k = 0 group is never vacuously accepted; threshold
semantics apply exactly when the field is present and nonzero (negative
values included). -/
theorem C10_zero_k_allof (env : Env) (address : String)
    (snap : Option OffChainBalancesMap) (g : OwnershipRequirements)
    (e : EvalError) (m : Int) (assets2 : List Asset) :
    (mustSatisfyAllB g = true ↔ numToSatisfy g = 0) ∧
    (g.options = none → mustSatisfyAllB g = true) ∧
    (numToSatisfy g = 0 →
      evalAssetsLoop env address snap true g.assets 0 = (.error e, assets2) →
      evalNormal env address snap g = (.error e, { g with assets := assets2 })) ∧
    (numToSatisfy g = 0 →
      evalAssetsLoop env address snap true g.assets 0 = (.ok m, assets2) →
      evalNormal env address snap g = (.ok (), { g with assets := assets2 })) := by
  refine ⟨?_, ?_, ?_, ?_⟩
  · simp [mustSatisfyAllB]
  · intro h
    simp [mustSatisfyAllB, numToSatisfy, h]
  · intro hk hloop
    have hmsa : mustSatisfyAllB g = true := by simp [mustSatisfyAllB, hk]
    simp only [evalNormal, hmsa, hloop]
  · intro hk hloop
    have hmsa : mustSatisfyAllB g = true := by simp [mustSatisfyAllB, hk]
    simp only [evalNormal, hmsa, hloop, if_true]

/-- Witness for the amended C10: the AllOf group with absent options has
`mustSatisfyAll` set, and its out-of-bounds balance is fatal (no vacuous
threshold acceptance). -/
theorem C10_zero_k_allof_witness :
    mustSatisfyAllB allOfGroup = true ∧
    evalNormal envC "addr" (some (snapOne 100)) allOfGroup =
      (.error (.thrown (tooMuchMsg "addr" "1" (bal 100) 10)), allOfGroup) := by
  constructor
  · exact (C10_zero_k_allof envC "addr" (some (snapOne 100)) allOfGroup .typeError 0
      [bbAsset]).2.1 rfl
  · have h := (C10_zero_k_allof envC "addr" (some (snapOne 100)) allOfGroup
      (.thrown (tooMuchMsg "addr" "1" (bal 100) 10)) 0 [bbAsset]).2.2.1 rfl rfl
    exact h.trans rfl

/-! ## Claim C3 — read-only inputs -/

/-- Counterexample to C3: a leaf whose only asset omits `ownershipTimes`
is accepted, but the returned tree differs from the caller's: the
evaluator wrote the default now-now window (time 100 in `envC`) into the
asset, so the caller-supplied condition tree is not read-only. -/
theorem C3_tree_mutated_counterexample :
    (verifyAssets envC "addr" (some snapEmpty) noTimesTree).1 = .ok () ∧
    (verifyAssets envC "addr" (some snapEmpty) noTimesTree).2 =
      .normal
        { assets := [{ noTimesAsset with ownershipTimes := some [{ start := 100, stop := 100 }] }],
          options := none } ∧
    (verifyAssets envC "addr" (some snapEmpty) noTimesTree).2 ≠ noTimesTree := by
  refine ⟨rfl, rfl, ?_⟩
  intro hcon
  rw [show (verifyAssets envC "addr" (some snapEmpty) noTimesTree).2 =
      .normal
        { assets := [{ noTimesAsset with ownershipTimes := some [{ start := 100, stop := 100 }] }],
          options := none } from rfl] at hcon
  simp [noTimesTree, noTimesAsset, bbAsset] at hcon

/-- An asset whose `ownershipTimes` is present and nonempty comes back
from one loop iteration unchanged, whatever the iteration's outcome. -/
lemma evalAsset_snd_of_timesPresent (env : Env) (address : String)
    (snap : Option OffChainBalancesMap) (msa : Bool) (n : Int) (a : Asset)
    (h : ownershipTimesMissing a.ownershipTimes = false) :
    (evalAsset env address snap msa n a).2 = a := by
  unfold evalAsset
  split
  · rcases hres : resolveDocBalances env address snap a.collectionId with e | db
    · rfl
    · simp only [h, Bool.false_eq_true, if_false]
      split
      · rfl
      · split
        · rfl
        · split
          · rfl
          · split
            · rfl
            · split
              · rfl
              · rfl
  · rfl

/-- A list of assets all of which carry nonempty `ownershipTimes` comes
back from the loop unchanged, whatever the loop's outcome. -/
lemma evalAssetsLoop_snd_of_timesPresent (env : Env) (address : String)
    (snap : Option OffChainBalancesMap) (msa : Bool) (assets : List Asset)
    (h : ∀ a ∈ assets, ownershipTimesMissing a.ownershipTimes = false) :
    ∀ n, (evalAssetsLoop env address snap msa assets n).2 = assets := by
  induction assets with
  | nil => intro n; rfl
  | cons a rest ih =>
    intro n
    have ha := evalAsset_snd_of_timesPresent env address snap msa n a (h a (by simp))
    rcases he : evalAsset env address snap msa n a with ⟨r, a2⟩
    have ha2 : a2 = a := by rw [he] at ha; exact ha
    cases r with
    | ok n2 =>
      simp [evalAssetsLoop, he, ha2, ih (fun a' ha' => h a' (List.mem_cons_of_mem _ ha'))]
    | error e => simp [evalAssetsLoop, he, ha2]

/-- A flat group all of whose assets carry nonempty `ownershipTimes` comes
back from its evaluation unchanged. -/
lemma evalNormal_snd_of_timesPresent (env : Env) (address : String)
    (snap : Option OffChainBalancesMap) (g : OwnershipRequirements)
    (h : ∀ a ∈ g.assets, ownershipTimesMissing a.ownershipTimes = false) :
    (evalNormal env address snap g).2 = g := by
  have hl := evalAssetsLoop_snd_of_timesPresent env address snap (mustSatisfyAllB g) g.assets h 0
  rcases he : evalAssetsLoop env address snap (mustSatisfyAllB g) g.assets 0 with ⟨r, assets2⟩
  have ha : assets2 = g.assets := by rw [he] at hl; exact hl
  subst ha
  cases r with
  | ok m =>
    simp only [evalNormal, he]
    split_ifs <;> rfl
  | error e => simp [evalNormal, he]

/-- Nonempty `ownershipTimes` on every asset of a flat group. -/
def groupAllTimes (g : OwnershipRequirements) : Bool :=
  g.assets.all fun a => !ownershipTimesMissing a.ownershipTimes

mutual

/-- Nonempty `ownershipTimes` on every asset of every leaf of the tree:
the condition under which no defaulting write ever occurs. -/
def treeAllTimes : AssetConditionGroup → Bool
  | .and items => listAllTimes items
  | .or items => listAllTimes items
  | .normal g => groupAllTimes g

/-- `treeAllTimes` over a list of children. -/
def listAllTimes : List AssetConditionGroup → Bool
  | [] => true
  | t :: rest => treeAllTimes t && listAllTimes rest

end

/-- The `$and` loop preserves a list of children each of which is
preserved by its own evaluation. -/
lemma verifyAnd_snd_of_IH (env : Env) (address : String)
    (snap : Option OffChainBalancesMap) (items : List AssetConditionGroup)
    (IH : ∀ t ∈ items, treeAllTimes t = true → (verifyAssets env address snap t).2 = t)
    (h : listAllTimes items = true) : (verifyAnd env address snap items).2 = items := by
  induction items with
  | nil => rfl
  | cons t rest ih =>
    have hh : treeAllTimes t = true ∧ listAllTimes rest = true := by
      simpa [listAllTimes, Bool.and_eq_true] using h
    have ht := IH t (by simp) hh.1
    rcases he : verifyAssets env address snap t with ⟨r, t2⟩
    have ht2 : t2 = t := by rw [he] at ht; exact ht
    cases r with
    | ok u =>
      simp [verifyAnd, he, ht2, ih (fun t' m => IH t' (List.mem_cons_of_mem _ m)) hh.2]
    | error e => simp [verifyAnd, he, ht2]

/-- The `$or` loop preserves a list of children each of which is preserved
by its own evaluation. -/
lemma verifyOr_snd_of_IH (env : Env) (address : String)
    (snap : Option OffChainBalancesMap) (items : List AssetConditionGroup)
    (IH : ∀ t ∈ items, treeAllTimes t = true → (verifyAssets env address snap t).2 = t)
    (h : listAllTimes items = true) : (verifyOr env address snap items).2 = items := by
  induction items with
  | nil => rfl
  | cons t rest ih =>
    have hh : treeAllTimes t = true ∧ listAllTimes rest = true := by
      simpa [listAllTimes, Bool.and_eq_true] using h
    have ht := IH t (by simp) hh.1
    rcases he : verifyAssets env address snap t with ⟨r, t2⟩
    have ht2 : t2 = t := by rw [he] at ht; exact ht
    cases r with
    | ok u => simp [verifyOr, he, ht2]
    | error e =>
      simp [verifyOr, he, ht2, ih (fun t' m => IH t' (List.mem_cons_of_mem _ m)) hh.2]

/-- Claim C3 as amended: the balance snapshot is never written, but the
condition tree is only conditionally read-only — the evaluator returns the
caller's tree unchanged provided every leaf asset carries a nonempty
`ownershipTimes`; an absent or empty field is overwritten in place with
the default now-now window (see the counterexample). -/
theorem C3_tree_preserved_when_times_present (env : Env) (address : String)
    (snap : Option OffChainBalancesMap) (t : AssetConditionGroup)
    (h : treeAllTimes t = true) :
    (verifyAssets env address snap t).2 = t := by
  have main : ∀ (N : ℕ) (t' : AssetConditionGroup), sizeOf t' ≤ N → treeAllTimes t' = true →
      (verifyAssets env address snap t').2 = t' := by
    intro N
    induction N with
    | zero =>
      intro t' hsz _
      exfalso
      cases t' <;> simp_arith at hsz
    | succ N ih =>
      intro t' hsz hall
      cases t' with
      | normal g =>
        have hg : ∀ a ∈ g.assets, ownershipTimesMissing a.ownershipTimes = false := by
          have h1 : groupAllTimes g = true := by simpa [treeAllTimes] using hall
          simpa [groupAllTimes] using h1
        simp only [verifyAssets]
        rw [evalNormal_snd_of_timesPresent env address snap g hg]
      | and items =>
        have hsize : ∀ t'' ∈ items, sizeOf t'' ≤ N := by
          intro t'' ht''
          have h1 : sizeOf t'' < sizeOf items := List.sizeOf_lt_of_mem ht''
          have h2 : sizeOf (AssetConditionGroup.and items) = 1 + sizeOf items := by simp
          omega
        simp only [verifyAssets]
        rw [verifyAnd_snd_of_IH env address snap items
          (fun t'' m htt => ih t'' (hsize t'' m) htt) (by simpa [treeAllTimes] using hall)]
      | or items =>
        have hsize : ∀ t'' ∈ items, sizeOf t'' ≤ N := by
          intro t'' ht''
          have h1 : sizeOf t'' < sizeOf items := List.sizeOf_lt_of_mem ht''
          have h2 : sizeOf (AssetConditionGroup.or items) = 1 + sizeOf items := by simp
          omega
        simp only [verifyAssets]
        rw [verifyOr_snd_of_IH env address snap items
          (fun t'' m htt => ih t'' (hsize t'' m) htt) (by simpa [treeAllTimes] using hall)]
  exact main (sizeOf t) t le_rfl h

/-- Witness for the amended C3: a tree whose single asset carries a
nonempty ownership window is returned exactly as supplied. -/
theorem C3_tree_preserved_when_times_present_witness :
    treeAllTimes (.normal allOfGroup) = true ∧
    (verifyAssets envC "addr" (some (snapOne 7)) (.normal allOfGroup)).2 = .normal allOfGroup := by
  refine ⟨by decide, ?_⟩
  exact C3_tree_preserved_when_times_present envC "addr" (some (snapOne 7)) (.normal allOfGroup)
    (by decide)
